import Mathlib

/-!
# Verification of the data-store row validation / normalization engine

Shallow embedding of `packages/cli/src/modules/data-store/data-store.service.ts`:
the schema-governed row validator (`validateRows`), the read-path normalizers
(`normalizeRows`, `normalizeBoolean`, `normalizeDate`, `normalizeString`,
`normalizeNumber`), and the thin orchestration operations (`createDataStore`,
`insertRows`, `upsertRows`).

JavaScript runtime values that can appear in a row cell are modelled by the
tagged union `JsValue` (native boolean, number, string, Date, or null).
JS numbers are modelled as integers (none of the verified properties depend
on fractional values), and a JS `Date` object is modelled as its integer
millisecond timestamp (always a valid date).  Rows model plain JS objects:
an association list of distinct keys in insertion order; `Object.keys`
enumerates exactly those keys, and `row[key] = v` updates the entry in
place.  In-place mutation of the batch is made explicit by threading the
batch through `validateRows`, which returns the caller-visible state of the
batch together with the error (if any) that the JS code would throw.
-/

namespace DataStore

/-- The closed set of declared column types (`data-store-column.entity.ts`). -/
inductive ColumnType where
  | boolean
  | date
  | string
  | number
deriving DecidableEq

/-- One typed column of a data store (the fields of `DataStoreColumn` the
engine reads: `name` and `type`). -/
structure DataStoreColumn where
  name : String
  type : ColumnType
deriving DecidableEq

/-- A JS runtime value that can sit in a row cell
(`DataStoreColumnJsType | null`). -/
inductive JsValue where
  | bool (b : Bool)
  | num (n : Int)
  | str (s : String)
  | date (ms : Int)
  | null
deriving DecidableEq

/-- A row: a JS object mapping column names to cell values, modelled as an
association list in insertion order. -/
abbrev Row := List (String × JsValue)

/-- `UserError` from `n8n-workflow`: carries a human-readable message. -/
structure UserError where
  message : String
deriving DecidableEq

/-! ## Model of the JS built-in date/number/string conversions

`Date.prototype.toISOString`, `new Date(string)`, `String(v)` and
`Number(v)` are platform built-ins, not code of this repository.  They are
modelled here as executable functions: `toISOString` is an injective
textual encoding of the millisecond timestamp (decimal digits, a sign, and
a terminating marker standing in for the fixed ISO-8601 digit layout), and
`jsParseDate` is its partial inverse, exactly as the real built-ins satisfy
`new Date(d.toISOString()).getTime() = d.getTime()`. -/

/-- The character for one decimal digit. -/
def digitChar (d : Nat) : Char :=
  match d with
  | 0 => '0' | 1 => '1' | 2 => '2' | 3 => '3' | 4 => '4'
  | 5 => '5' | 6 => '6' | 7 => '7' | 8 => '8' | _ => '9'

/-- The numeric value of a decimal digit character (10 marks a non-digit). -/
def charDigit (c : Char) : Nat :=
  match c with
  | '0' => 0 | '1' => 1 | '2' => 2 | '3' => 3 | '4' => 4
  | '5' => 5 | '6' => 6 | '7' => 7 | '8' => 8 | '9' => 9
  | _ => 10

/-- Whether a character is a decimal digit. -/
def isDigitCh (c : Char) : Bool :=
  decide (charDigit c < 10)

/-- Little-endian decimal digits of a natural number (fuel-based structural
recursion so that it reduces in the kernel). -/
def digitsAux : Nat → Nat → List Nat
  | 0, _ => []
  | _ + 1, 0 => []
  | fuel + 1, n + 1 => (n + 1) % 10 :: digitsAux fuel ((n + 1) / 10)

/-- Little-endian decimal digits of `n`. -/
def natDigits (n : Nat) : List Nat := digitsAux n n

/-- Value of a little-endian decimal digit list. -/
def decodeDigits : List Nat → Nat
  | [] => 0
  | d :: ds => d + 10 * decodeDigits ds

/-- Decimal string of a natural number. -/
def natToDecimal (n : Nat) : String :=
  if n = 0 then "0" else (((natDigits n).map digitChar).reverse).asString

/-- Decimal string of an integer. -/
def intToDecimal (n : Int) : String :=
  if n < 0 then "-" ++ natToDecimal n.natAbs else natToDecimal n.natAbs

/-- Parse a non-empty all-digit character list as a natural number. -/
def parseDigits (l : List Char) : Option Nat :=
  if l ≠ [] ∧ l.all isDigitCh then
    some (decodeDigits ((l.reverse).map charDigit))
  else none

theorem decodeDigits_digitsAux (fuel : Nat) :
    ∀ n : Nat, n ≤ fuel → decodeDigits (digitsAux fuel n) = n := by
  induction fuel with
  | zero =>
    intro n h
    have : n = 0 := Nat.le_zero.mp h
    subst this
    rfl
  | succ f ih =>
    intro n h
    match n with
    | 0 => rfl
    | m + 1 =>
      have hdiv : (m + 1) / 10 ≤ f := by
        have := Nat.div_lt_self (Nat.succ_pos m) (by norm_num : 1 < 10)
        omega
      simp only [digitsAux, decodeDigits, ih _ hdiv]
      omega

theorem decodeDigits_natDigits (n : Nat) : decodeDigits (natDigits n) = n :=
  decodeDigits_digitsAux n n (Nat.le_refl n)

theorem digitsAux_lt (fuel : Nat) :
    ∀ n : Nat, ∀ d ∈ digitsAux fuel n, d < 10 := by
  induction fuel with
  | zero => intro n d hd; simp [digitsAux] at hd
  | succ f ih =>
    intro n d hd
    match n with
    | 0 => simp [digitsAux] at hd
    | m + 1 =>
      simp only [digitsAux, List.mem_cons] at hd
      rcases hd with h | h
      · subst h; exact Nat.mod_lt _ (by norm_num)
      · exact ih _ d h

theorem charDigit_digitChar {d : Nat} (h : d < 10) :
    charDigit (digitChar d) = d := by
  interval_cases d <;> rfl

theorem isDigitCh_digitChar {d : Nat} (h : d < 10) :
    isDigitCh (digitChar d) = true := by
  interval_cases d <;> rfl

theorem natDigits_ne_nil {n : Nat} (h : 0 < n) : natDigits n ≠ [] := by
  match n, h with
  | m + 1, _ => simp [natDigits, digitsAux]

theorem natToDecimal_data_digits (n : Nat) :
    (natToDecimal n).data ≠ [] ∧ (natToDecimal n).data.all isDigitCh = true := by
  by_cases h : n = 0
  · subst h; constructor <;> decide
  · have hpos : 0 < n := Nat.pos_of_ne_zero h
    simp only [natToDecimal, if_neg h]
    constructor
    · simp only [List.asString]
      simp only [ne_eq, List.reverse_eq_nil_iff, List.map_eq_nil_iff]
      exact natDigits_ne_nil hpos
    · simp only [List.asString, List.all_eq_true, List.mem_reverse, List.mem_map]
      rintro c ⟨d, hd, rfl⟩
      exact isDigitCh_digitChar (digitsAux_lt n n d hd)

theorem parseDigits_natToDecimal (n : Nat) :
    parseDigits (natToDecimal n).data = some n := by
  by_cases h : n = 0
  · subst h; decide
  · obtain ⟨hne, hall⟩ := natToDecimal_data_digits n
    simp only [parseDigits, if_pos (And.intro hne hall)]
    simp only [natToDecimal, if_neg h, List.asString]
    simp only [List.reverse_reverse, List.map_map]
    have hmap : (natDigits n).map (charDigit ∘ digitChar) = natDigits n := by
      apply List.map_congr_left ?_ |>.trans (List.map_id _)
      intro d hd
      exact charDigit_digitChar (digitsAux_lt n n d hd)
    rw [hmap, decodeDigits_natDigits]

/-- Models the JS built-in `Date.prototype.toISOString`: an injective textual
encoding of the date's millisecond timestamp (the exact ISO-8601 digit
layout of the real built-in is abstracted to sign + decimal digits +
terminating marker). -/
def toISOString (ms : Int) : String :=
  if ms < 0 then "-" ++ natToDecimal ms.natAbs ++ "Z"
  else natToDecimal ms.natAbs ++ "Z"

/-- Parse a digit list followed by the terminating marker. -/
def parseDigitsZ (l : List Char) : Option Nat :=
  if l.getLast? = some 'Z' then parseDigits l.dropLast else none

/-- Models JS date-string parsing (`new Date(string)` plus the
`isNaN(parsed.getTime())` test): the partial inverse of `toISOString`,
returning `none` where the real built-in yields an invalid date. -/
def jsParseDate (s : String) : Option Int :=
  match s.data with
  | [] => none
  | c :: rest =>
    if c = '-' then
      match parseDigitsZ rest with
      | some n => some (-(n : Int))
      | none => none
    else
      match parseDigitsZ (c :: rest) with
      | some n => some ((n : Int))
      | none => none

theorem parseDigitsZ_concat (l : List Char) :
    parseDigitsZ (l ++ ['Z']) = parseDigits l := by
  simp [parseDigitsZ, List.getLast?_concat, List.dropLast_concat]

theorem jsParseDate_toISOString (ms : Int) :
    jsParseDate (toISOString ms) = some ms := by
  obtain ⟨hne, hall⟩ := natToDecimal_data_digits ms.natAbs
  by_cases hneg : ms < 0
  · have hdata : (toISOString ms).data =
        '-' :: ((natToDecimal ms.natAbs).data ++ ['Z']) := by
      simp [toISOString, if_pos hneg, String.data_append]
    simp only [jsParseDate, hdata, if_pos rfl]
    rw [parseDigitsZ_concat, parseDigits_natToDecimal]
    have habs : ((ms.natAbs : Int)) = -ms :=
      Int.ofNat_natAbs_of_nonpos (Int.le_of_lt hneg)
    simp [habs]
  · have hdata : (toISOString ms).data =
        (natToDecimal ms.natAbs).data ++ ['Z'] := by
      simp [toISOString, if_neg hneg, String.data_append]
    obtain ⟨c, cs, hcase⟩ := List.exists_cons_of_ne_nil hne
    have hcd : isDigitCh c = true := by
      rw [hcase] at hall
      simp only [List.all_cons, Bool.and_eq_true] at hall
      exact hall.1
    have hcne : ¬(c = '-') := by
      intro h
      rw [h] at hcd
      exact absurd hcd (by decide)
    rw [hcase] at hdata
    simp only [jsParseDate, hdata, List.cons_append, if_neg hcne]
    have hpz : parseDigitsZ (c :: (cs ++ ['Z'])) = some ms.natAbs := by
      have h1 := parseDigitsZ_concat (c :: cs)
      rw [List.cons_append] at h1
      rw [h1, ← hcase, parseDigits_natToDecimal]
    rw [hpz]
    have habs : ((ms.natAbs : Int)) = ms :=
      Int.natAbs_of_nonneg (Int.not_lt.mp hneg)
    simp [habs]

/-- Models JS string-to-number coercion (`Number(string)`): decimal parse,
`none` standing for `NaN` (the empty string coerces to `0`). -/
def parseIntDecimal (s : String) : Option Int :=
  match s.data with
  | [] => some 0
  | c :: rest =>
    if c = '-' then
      match parseDigits rest with
      | some n => some (-(n : Int))
      | none => none
    else
      match parseDigits (c :: rest) with
      | some n => some ((n : Int))
      | none => none

/-- Models JS `Number(v)` coercion on cell values (`none` = `NaN`). -/
def jsToNumber (value : JsValue) : Option Int :=
  match value with
  | JsValue.bool true => some 1
  | JsValue.bool false => some 0
  | JsValue.num n => some n
  | JsValue.str s => parseIntDecimal s
  | JsValue.date ms => some ms
  | JsValue.null => some 0

/-- Models JS `String(v)` / template-literal / `.toString()` conversion of a
cell value, used in error messages and in `normalizeString`. -/
def jsToString (value : JsValue) : String :=
  match value with
  | JsValue.bool true => "true"
  | JsValue.bool false => "false"
  | JsValue.num n => intToDecimal n
  | JsValue.str s => s
  | JsValue.date ms => toISOString ms
  | JsValue.null => "null"

/-! ## The schema lookup structures

`validateRows` builds `columnNames = new Set(columns.map(x => x.name))` and
`columnTypeMap = new Map(columns.map(x => [x.name, x.type]))`;
`normalizeRows` builds the same `Map`.  A JS `Map` built from a list keeps
the *last* entry for a duplicated key, so the lookup goes through the
reversed pair list. -/

/-- The declared column names (JS `Set` membership is order-insensitive). -/
def columnNames (columns : List DataStoreColumn) : List String :=
  columns.map (fun c => c.name)

/-- `Map.get` on the name→type map built from `columns`
(last entry wins on duplicated names, as for a JS `Map`). -/
def lookupType (columns : List DataStoreColumn) (key : String) : Option ColumnType :=
  ((columns.map (fun c => (c.name, c.type))).reverse).lookup key

/-! ## Read-path type coercion (`normalizeBoolean` … `normalizeRows`) -/

/-- `normalizeBoolean` (service lines 190–195): native boolean passes
through; `1`/`'1'` → `true`; `0`/`'0'` → `false`; anything else → null. -/
def normalizeBoolean (value : JsValue) : JsValue :=
  match value with
  | JsValue.bool b => JsValue.bool b
  | v =>
    if v = JsValue.num 1 ∨ v = JsValue.str "1" then JsValue.bool true
    else if v = JsValue.num 0 ∨ v = JsValue.str "0" then JsValue.bool false
    else JsValue.null

/-- `normalizeDate` (service lines 197–205): null → null; a native `Date`
passes through; a string or number is parsed via `new Date(value)` with the
`isNaN` test; anything else → null.  (A JS number always yields a valid
date in this integer-timestamp model.) -/
def normalizeDate (value : JsValue) : JsValue :=
  match value with
  | JsValue.null => JsValue.null
  | JsValue.date ms => JsValue.date ms
  | JsValue.str s =>
    match jsParseDate s with
    | some t => JsValue.date t
    | none => JsValue.null
  | JsValue.num n => JsValue.date n
  | JsValue.bool _ => JsValue.null

/-- `normalizeString` (service lines 207–211): null → null; a native string
passes through; anything else is stringified via `String(value)`. -/
def normalizeString (value : JsValue) : JsValue :=
  match value with
  | JsValue.null => JsValue.null
  | JsValue.str s => JsValue.str s
  | v => JsValue.str (jsToString v)

/-- `normalizeNumber` (service lines 213–218): null → null; a native number
passes through; anything else goes through `Number(value)`, `NaN` → null. -/
def normalizeNumber (value : JsValue) : JsValue :=
  match value with
  | JsValue.null => JsValue.null
  | JsValue.num n => JsValue.num n
  | v =>
    match jsToNumber v with
    | some n => JsValue.num n
    | none => JsValue.null

/-- The per-cell switch in the loop body of `normalizeRows` (service lines
167–185): look the key up in the name→type map and apply the coercion rule
for the declared type; a key with no declared column passes through
unchanged (the `default` branch). -/
def normalizeCell (columns : List DataStoreColumn) (kc : String × JsValue) :
    String × JsValue :=
  match lookupType columns kc.1 with
  | some ColumnType.boolean => (kc.1, normalizeBoolean kc.2)
  | some ColumnType.date => (kc.1, normalizeDate kc.2)
  | some ColumnType.string => (kc.1, normalizeString kc.2)
  | some ColumnType.number => (kc.1, normalizeNumber kc.2)
  | none => kc

/-- `normalizeRows(rows, columns)` (service lines 163–188): every cell of
every row goes through the per-cell switch. -/
def normalizeRows (rows : List Row) (columns : List DataStoreColumn) : List Row :=
  rows.map (fun row => row.map (normalizeCell columns))

/-! ## Write-path validation (`validateRows`) -/

/-- The per-key loop body of `validateRows` (service lines 233–260), over
the entries of one row in insertion order.  Returns the row as left in the
caller's object (date cells rewritten in place up to the failure point)
together with the error thrown, if any. -/
def validateCells (columns : List DataStoreColumn) :
    List (String × JsValue) → List (String × JsValue) × Option UserError
  | [] => ([], none)
  | (key, cell) :: rest =>
    if ¬ (columnNames columns).contains key then
      ((key, cell) :: rest, some ⟨"unknown column name"⟩)
    else if cell = JsValue.null then
      ((key, cell) :: (validateCells columns rest).1, (validateCells columns rest).2)
    else
      match lookupType columns key, cell with
      | some ColumnType.boolean, JsValue.bool b =>
        ((key, JsValue.bool b) :: (validateCells columns rest).1,
          (validateCells columns rest).2)
      | some ColumnType.boolean, c =>
        ((key, c) :: rest,
          some ⟨"value '" ++ jsToString c ++ "' does not match column type 'boolean'"⟩)
      | some ColumnType.date, JsValue.date ms =>
        ((key, JsValue.str (toISOString ms)) :: (validateCells columns rest).1,
          (validateCells columns rest).2)
      | some ColumnType.date, c =>
        ((key, c) :: rest,
          some ⟨"value '" ++ jsToString c ++ "' does not match column type 'date'"⟩)
      | some ColumnType.string, JsValue.str s =>
        ((key, JsValue.str s) :: (validateCells columns rest).1,
          (validateCells columns rest).2)
      | some ColumnType.string, c =>
        ((key, c) :: rest,
          some ⟨"value '" ++ jsToString c ++ "' does not match column type 'string'"⟩)
      | some ColumnType.number, JsValue.num n =>
        ((key, JsValue.num n) :: (validateCells columns rest).1,
          (validateCells columns rest).2)
      | some ColumnType.number, c =>
        ((key, c) :: rest,
          some ⟨"value '" ++ jsToString c ++ "' does not match column type 'number'"⟩)
      | none, c =>
        ((key, c) :: (validateCells columns rest).1, (validateCells columns rest).2)

/-- The per-row loop of `validateRows` (service lines 228–261): the key
count is compared to the column count before any key is inspected; rows are
processed in order and the first failure aborts the loop. -/
def validateRowsLoop (columns : List DataStoreColumn) :
    List Row → List Row × Option UserError
  | [] => ([], none)
  | row :: rest =>
    if columns.length ≠ row.length then
      (row :: rest, some ⟨"mismatched key count"⟩)
    else
      match validateCells columns row with
      | (row2, some e) => (row2 :: rest, some e)
      | (row2, none) =>
        (row2 :: (validateRowsLoop columns rest).1, (validateRowsLoop columns rest).2)

/-- `validateRows` (service lines 220–262), applied to the freshly fetched
schema: an empty schema fails up front; otherwise the batch is validated
row by row.  The first component is the caller-visible state of the batch
after the call (dates rewritten in place), the second the thrown error. -/
def validateRows (columns : List DataStoreColumn) (rows : List Row) :
    List Row × Option UserError :=
  if columns.length = 0 then
    (rows, some ⟨"No columns found for this data store or data store not found"⟩)
  else validateRowsLoop columns rows

/-! ## Orchestration (`insertRows`, `upsertRows`, `createDataStore`) -/

/-- `UpsertDataStoreRowsDto`: the rows plus match/merge instructions that
are opaque to the validator. -/
structure UpsertDataStoreRowsDto where
  rows : List Row
  matchFields : List String

/-- Observable outcome of a write call: the caller's batch after the call
(in-place date rewrites included), the error thrown (if any), and the rows
handed to the row-storage collaborator (`none` = storage never invoked). -/
structure WriteOutcome where
  batch : List Row
  error : Option UserError
  persisted : Option (List Row)
deriving DecidableEq

/-- `insertRows` (service lines 264–269): validate against the freshly
fetched schema, then delegate the (mutated) batch to
`dataStoreRowsRepository.insertRows`; a validation error propagates before
the storage collaborator is invoked. -/
def insertRows (columns : List DataStoreColumn) (rows : List Row) : WriteOutcome :=
  match validateRows columns rows with
  | (rows2, some e) => ⟨rows2, some e, none⟩
  | (rows2, none) => ⟨rows2, none, some rows2⟩

/-- `upsertRows` (service lines 271–276): identical control flow on
`dto.rows`, delegating to `dataStoreRowsRepository.upsertRows`. -/
def upsertRows (columns : List DataStoreColumn) (dto : UpsertDataStoreRowsDto) :
    WriteOutcome :=
  match validateRows columns dto.rows with
  | (rows2, some e) => ⟨rows2, some e, none⟩
  | (rows2, none) => ⟨rows2, none, some rows2⟩

/-- The fields of a persisted data-store entity that `createDataStore`
consults: its name and owning project. -/
structure DataStoreEntity where
  name : String
  projectId : String
deriving DecidableEq

/-- `dataStoreRepository.findOneBy({name, projectId})`: the first stored
entity matching both criteria. -/
def findOneBy (stores : List DataStoreEntity) (name projectId : String) :
    Option DataStoreEntity :=
  stores.find? (fun s => s.name == name && s.projectId == projectId)

/-- Outcome of `createDataStore`: either creation was delegated to the
repository with these arguments, or a `UserError` was thrown first. -/
inductive CreateResult where
  | created (projectId name : String) (columns : List DataStoreColumn)
  | failed (e : UserError)
deriving DecidableEq

/-- `createDataStore` (service lines 34–43): fail with a duplicate-name
error when a store with the same name already exists in the same project,
otherwise delegate creation to the repository. -/
def createDataStore (stores : List DataStoreEntity) (projectId : String)
    (name : String) (columns : List DataStoreColumn) : CreateResult :=
  match findOneBy stores name projectId with
  | some _ =>
    CreateResult.failed
      ⟨"Data store with name '" ++ name ++ "' already exists in this project"⟩
  | none => CreateResult.created projectId name columns

/-! ## Derived predicates used to state the verified properties -/

/-- A non-null cell's runtime type strictly matches a declared column
type (step 5 of the validation algorithm). -/
def cellMatchesType (ty : ColumnType) (v : JsValue) : Bool :=
  match ty, v with
  | ColumnType.boolean, JsValue.bool _ => true
  | ColumnType.date, JsValue.date _ => true
  | ColumnType.string, JsValue.str _ => true
  | ColumnType.number, JsValue.num _ => true
  | _, _ => false

/-- A cell the validator accepts: its key is a declared column name and its
value is null or strictly matches the declared type. -/
def validCell (columns : List DataStoreColumn) (kc : String × JsValue) : Bool :=
  (columnNames columns).contains kc.1 &&
    (if kc.2 = JsValue.null then true
     else
       match lookupType columns kc.1 with
       | some ty => cellMatchesType ty kc.2
       | none => true)

/-- A row the validator accepts: key count equals the column count and
every cell is accepted. -/
def rowValid (columns : List DataStoreColumn) (row : Row) : Bool :=
  (row.length == columns.length) && row.all (validCell columns)

/-- The in-place rewrite the validator performs on an accepted cell: a
non-null cell of a `date` column becomes its ISO string; everything else is
untouched. -/
def rewriteEntry (columns : List DataStoreColumn) (kc : String × JsValue) :
    String × JsValue :=
  match kc.2 with
  | JsValue.date ms =>
    if lookupType columns kc.1 = some ColumnType.date then
      (kc.1, JsValue.str (toISOString ms))
    else kc
  | _ => kc

/-- The in-place rewrite the validator performs on an accepted row. -/
def rewriteRow (columns : List DataStoreColumn) (row : Row) : Row :=
  row.map (rewriteEntry columns)

/-- A cell already in canonical in-memory form for its column's declared
type (null or the native type); keys outside the schema are unconstrained
because normalization passes them through. -/
def canonicalCell (columns : List DataStoreColumn) (kc : String × JsValue) : Bool :=
  match lookupType columns kc.1 with
  | none => true
  | some ty => if kc.2 = JsValue.null then true else cellMatchesType ty kc.2

/-! ## Structural lemmas about the validator -/

theorem lookup_isSome_iff_mem (l : List (String × ColumnType)) (k : String) :
    (List.lookup k l).isSome = true ↔ k ∈ l.map Prod.fst := by
  induction l with
  | nil => simp [List.lookup]
  | cons p l ih =>
    obtain ⟨a, b⟩ := p
    by_cases h : k = a
    · subst h
      simp [List.lookup]
    · have hb : (k == a) = false := beq_false_of_ne h
      simp [List.lookup, hb, ih, h]

theorem contains_iff_lookupType (columns : List DataStoreColumn) (k : String) :
    (columnNames columns).contains k = true ↔ (lookupType columns k).isSome = true := by
  rw [lookupType, lookup_isSome_iff_mem]
  simp [columnNames, List.contains, List.elem_iff, Function.comp]

theorem validateCells_cons_valid (columns : List DataStoreColumn)
    (kc : String × JsValue) (rest : List (String × JsValue))
    (h : validCell columns kc = true) :
    validateCells columns (kc :: rest) =
      (rewriteEntry columns kc :: (validateCells columns rest).1,
        (validateCells columns rest).2) := by
  obtain ⟨k, c⟩ := kc
  simp only [validCell, Bool.and_eq_true] at h
  obtain ⟨hcon, hrest⟩ := h
  have hmem : k ∈ columnNames columns := by
    simpa [List.contains, List.elem_iff] using hcon
  by_cases hnull : c = JsValue.null
  · subst hnull
    simp [validateCells, hcon, hmem, rewriteEntry]
  · have hsome : (lookupType columns k).isSome = true :=
      (contains_iff_lookupType columns k).mp hcon
    obtain ⟨ty, hty⟩ := Option.isSome_iff_exists.mp hsome
    rw [if_neg hnull, hty] at hrest
    cases ty <;> cases c <;>
      simp_all [validateCells, cellMatchesType, rewriteEntry, hcon, hmem, hty]

theorem validateCells_append (columns : List DataStoreColumn)
    (pre suffix : List (String × JsValue))
    (hpre : ∀ kc ∈ pre, validCell columns kc = true) :
    validateCells columns (pre ++ suffix) =
      (pre.map (rewriteEntry columns) ++ (validateCells columns suffix).1,
        (validateCells columns suffix).2) := by
  induction pre with
  | nil => simp
  | cons kc pre ih =>
    have hkc := hpre kc (by simp)
    have hpre2 : ∀ x ∈ pre, validCell columns x = true :=
      fun x hx => hpre x (by simp [hx])
    rw [List.cons_append, validateCells_cons_valid columns kc _ hkc, ih hpre2]
    simp

theorem validateCells_all_valid (columns : List DataStoreColumn)
    (row : List (String × JsValue))
    (h : ∀ kc ∈ row, validCell columns kc = true) :
    validateCells columns row = (row.map (rewriteEntry columns), none) := by
  have := validateCells_append columns row [] h
  simpa [validateCells] using this

theorem validateRowsLoop_cons_valid (columns : List DataStoreColumn)
    (row : Row) (rest : List Row) (h : rowValid columns row = true) :
    validateRowsLoop columns (row :: rest) =
      (rewriteRow columns row :: (validateRowsLoop columns rest).1,
        (validateRowsLoop columns rest).2) := by
  simp only [rowValid, Bool.and_eq_true, beq_iff_eq, List.all_eq_true] at h
  obtain ⟨hlen, hcells⟩ := h
  have hvc := validateCells_all_valid columns row hcells
  simp [validateRowsLoop, hlen, hvc, rewriteRow]

theorem validateRowsLoop_append (columns : List DataStoreColumn)
    (rows1 rest : List Row)
    (h : ∀ r ∈ rows1, rowValid columns r = true) :
    validateRowsLoop columns (rows1 ++ rest) =
      (rows1.map (rewriteRow columns) ++ (validateRowsLoop columns rest).1,
        (validateRowsLoop columns rest).2) := by
  induction rows1 with
  | nil => simp
  | cons row rows1 ih =>
    have hrow := h row (by simp)
    have h2 : ∀ r ∈ rows1, rowValid columns r = true :=
      fun r hr => h r (by simp [hr])
    rw [List.cons_append, validateRowsLoop_cons_valid columns row _ hrow, ih h2]
    simp

theorem validateRows_all_valid (columns : List DataStoreColumn)
    (rows : List Row) (h0 : columns ≠ [])
    (h : ∀ r ∈ rows, rowValid columns r = true) :
    validateRows columns rows = (rows.map (rewriteRow columns), none) := by
  have hlen : ¬(columns.length = 0) := by
    simpa [List.length_eq_zero] using h0
  have := validateRowsLoop_append columns rows [] h
  simp only [List.append_nil] at this
  simp [validateRows, hlen, this, validateRowsLoop]

theorem validateRowsLoop_cons_count (columns : List DataStoreColumn)
    (row : Row) (rest : List Row) (hlen : columns.length ≠ row.length) :
    validateRowsLoop columns (row :: rest) =
      (row :: rest, some ⟨"mismatched key count"⟩) := by
  simp [validateRowsLoop, hlen]

theorem validateRowsLoop_cons_fail (columns : List DataStoreColumn)
    (row : Row) (rest : List Row) (row2 : Row) (e : UserError)
    (hlen : columns.length = row.length)
    (hf : validateCells columns row = (row2, some e)) :
    validateRowsLoop columns (row :: rest) = (row2 :: rest, some e) := by
  simp [validateRowsLoop, hlen, hf]

theorem validateCells_cons_unknown (columns : List DataStoreColumn)
    (k : String) (v : JsValue) (post : List (String × JsValue))
    (hk : (columnNames columns).contains k = false) :
    validateCells columns ((k, v) :: post) =
      ((k, v) :: post, some ⟨"unknown column name"⟩) := by
  have hnm : k ∉ columnNames columns := by
    intro hm
    have hc : (columnNames columns).contains k = true := by
      simpa [List.contains, List.elem_iff] using hm
    rw [hc] at hk
    exact Bool.noConfusion hk
  simp [validateCells, hk, hnm]

theorem validateRows_fail_decompose (columns : List DataStoreColumn)
    (rows1 : List Row) (row : Row) (rows2 : List Row) (row2 : Row) (e : UserError)
    (h0 : columns ≠ [])
    (h1 : ∀ r ∈ rows1, rowValid columns r = true)
    (hlen : columns.length = row.length)
    (hf : validateCells columns row = (row2, some e)) :
    validateRows columns (rows1 ++ row :: rows2) =
      (rows1.map (rewriteRow columns) ++ row2 :: rows2, some e) := by
  have hl : ¬(columns.length = 0) := by
    simpa [List.length_eq_zero] using h0
  simp only [validateRows, if_neg hl]
  rw [validateRowsLoop_append columns rows1 (row :: rows2) h1,
    validateRowsLoop_cons_fail columns row rows2 row2 e hlen hf]

theorem validateRows_count_decompose (columns : List DataStoreColumn)
    (rows1 : List Row) (row : Row) (rows2 : List Row)
    (h0 : columns ≠ [])
    (h1 : ∀ r ∈ rows1, rowValid columns r = true)
    (hlen : columns.length ≠ row.length) :
    validateRows columns (rows1 ++ row :: rows2) =
      (rows1.map (rewriteRow columns) ++ row :: rows2,
        some ⟨"mismatched key count"⟩) := by
  have hl : ¬(columns.length = 0) := by
    simpa [List.length_eq_zero] using h0
  simp only [validateRows, if_neg hl]
  rw [validateRowsLoop_append columns rows1 (row :: rows2) h1,
    validateRowsLoop_cons_count columns row rows2 hlen]

/-! ## The verified claims -/

/-- C1 (amended: the schema must additionally be non-empty — `validateRows`
rejects every batch against an empty schema up front).  For every non-empty
schema and every batch of rows in which each row has as many keys as the
schema has columns, every key is a declared column name, and every non-null
cell's runtime type matches its column's declared type, `validateRows` (as
invoked by `insertRows` and `upsertRows`) succeeds without error and leaves
every cell unchanged except that each (non-null) cell of a date column is
rewritten to its ISO-8601 string form (`rewriteEntry`). -/
theorem validateRows_success (columns : List DataStoreColumn) (rows : List Row)
    (h0 : columns ≠ [])
    (h : ∀ r ∈ rows, rowValid columns r = true) :
    validateRows columns rows = (rows.map (rewriteRow columns), none) :=
  validateRows_all_valid columns rows h0 h

/-- C1 witness: a concrete two-column schema and two accepted rows; the date
cell is rewritten to its ISO string, every other cell (including the null
date cell) is untouched, and no error is raised. -/
theorem validateRows_success_witness :
    validateRows [⟨"when", ColumnType.date⟩, ⟨"total", ColumnType.number⟩]
        [[("when", JsValue.date 5), ("total", JsValue.num 10)],
         [("when", JsValue.null), ("total", JsValue.num 3)]] =
      ([[("when", JsValue.str (toISOString 5)), ("total", JsValue.num 10)],
        [("when", JsValue.null), ("total", JsValue.num 3)]], none) := by
  have h := validateRows_success
      [⟨"when", ColumnType.date⟩, ⟨"total", ColumnType.number⟩]
      [[("when", JsValue.date 5), ("total", JsValue.num 10)],
       [("when", JsValue.null), ("total", JsValue.num 3)]]
      (by decide) (by decide)
  rw [h]
  rfl

/-- C1 counterexample: for the empty schema (k = 0) the empty batch — in
which every row vacuously has exactly those 0 column names as keys and
every non-null cell vacuously matches — does not succeed: `validateRows`
fails with the empty-schema error. -/
theorem validateRows_empty_schema_counterexample :
    (validateRows [] []).2 =
      some ⟨"No columns found for this data store or data store not found"⟩ := by
  rfl

/-- C2 (amended: validation is fail-fast on the first violating row, so the
mismatched-key-count error is the one reported when every row preceding the
offending row passes validation).  For every non-empty schema and every
batch containing a row whose number of keys differs from the schema's
column count, if all earlier rows pass validation then `validateRows` fails
with the mismatched-key-count error, regardless of which keys differ. -/
theorem validateRows_mismatched_key_count (columns : List DataStoreColumn)
    (rows1 : List Row) (r : Row) (rows2 : List Row)
    (h0 : columns ≠ [])
    (h1 : ∀ row ∈ rows1, rowValid columns row = true)
    (hlen : r.length ≠ columns.length) :
    (validateRows columns (rows1 ++ r :: rows2)).2 =
      some ⟨"mismatched key count"⟩ := by
  rw [validateRows_count_decompose columns rows1 r rows2 h0 h1 (Ne.symm hlen)]

/-- C2 witness: one valid row followed by a row with too few keys; the
batch fails with the mismatched-key-count error. -/
theorem validateRows_mismatched_key_count_witness :
    (validateRows [⟨"a", ColumnType.string⟩]
        [[("a", JsValue.str "x")], []]).2 = some ⟨"mismatched key count"⟩ :=
  validateRows_mismatched_key_count [⟨"a", ColumnType.string⟩]
    [[("a", JsValue.str "x")]] [] [] (by decide) (by decide) (by decide)

/-- C2 counterexample: a batch containing a row with a mismatched key count
(the second row, 2 keys against 1 column) on which `validateRows`
nevertheless reports a different error, because the first row fails earlier
with an unknown column name — refuting the claim's unconditional
"regardless" quantification over batches. -/
theorem validateRows_mismatched_key_count_counterexample :
    ((validateRows [⟨"a", ColumnType.string⟩]
        [[("b", JsValue.null)], [("x", JsValue.null), ("y", JsValue.null)]]).2 =
      some ⟨"unknown column name"⟩) ∧
    ([("x", JsValue.null), ("y", JsValue.null)] : Row).length ≠
      ([⟨"a", ColumnType.string⟩] : List DataStoreColumn).length := by
  decide

/-- C3 (amended: the key-count comparison precedes the unknown-key check,
so a row whose key count also differs fails with the mismatched-key-count
error instead; and validation is fail-fast, so earlier rows and earlier
cells of the row must pass).  For every non-empty schema and every batch
containing a row with a key absent from the schema's column names, if the
row's key count equals the schema's column count, every earlier row passes
validation, and the cells preceding the unknown key are valid,
`validateRows` fails with the unknown-column error. -/
theorem validateRows_unknown_column (columns : List DataStoreColumn)
    (rows1 : List Row) (pre : List (String × JsValue)) (k : String)
    (v : JsValue) (post : List (String × JsValue)) (rows2 : List Row)
    (h0 : columns ≠ [])
    (h1 : ∀ row ∈ rows1, rowValid columns row = true)
    (hpre : ∀ kc ∈ pre, validCell columns kc = true)
    (hlen : (pre ++ (k, v) :: post).length = columns.length)
    (hk : (columnNames columns).contains k = false) :
    (validateRows columns (rows1 ++ (pre ++ (k, v) :: post) :: rows2)).2 =
      some ⟨"unknown column name"⟩ := by
  have hcells : validateCells columns (pre ++ (k, v) :: post) =
      (pre.map (rewriteEntry columns) ++ (k, v) :: post,
        some ⟨"unknown column name"⟩) := by
    rw [validateCells_append columns pre ((k, v) :: post) hpre,
      validateCells_cons_unknown columns k v post hk]
  rw [validateRows_fail_decompose columns rows1 _ rows2 _ _ h0 h1 hlen.symm hcells]

/-- C3 witness: a row whose second key is not a declared column (key count
matching the two-column schema) fails with the unknown-column error. -/
theorem validateRows_unknown_column_witness :
    (validateRows [⟨"a", ColumnType.string⟩, ⟨"b", ColumnType.number⟩]
        [[("a", JsValue.str "x"), ("c", JsValue.num 1)]]).2 =
      some ⟨"unknown column name"⟩ :=
  validateRows_unknown_column [⟨"a", ColumnType.string⟩, ⟨"b", ColumnType.number⟩]
    [] [("a", JsValue.str "x")] "c" (JsValue.num 1) [] []
    (by decide) (by decide) (by decide) (by decide) (by decide)

/-- C3 counterexample: a row containing the unknown key `"c"` whose key
count (1) also differs from the schema's column count (2): `validateRows`
reports the mismatched-key-count error, not the unknown-column error,
refuting the claim's parenthetical "including rows whose key count also
differs". -/
theorem validateRows_unknown_column_counterexample :
    ((validateRows [⟨"a", ColumnType.string⟩, ⟨"b", ColumnType.string⟩]
        [[("c", JsValue.null)]]).2 = some ⟨"mismatched key count"⟩) ∧
    (columnNames [⟨"a", ColumnType.string⟩, ⟨"b", ColumnType.string⟩]).contains "c" =
      false := by
  decide

/-- C4: the read-path boolean coercion `normalizeBoolean` — applied by
`normalizeRows` (via `normalizeCell`) to every cell of a boolean column —
maps a native boolean to itself, the literals `1` and `'1'` to `true`, the
literals `0` and `'0'` to `false`, and every other raw value (including
null) to null. -/
theorem normalizeBoolean_coercion :
    (∀ b, normalizeBoolean (JsValue.bool b) = JsValue.bool b) ∧
    normalizeBoolean (JsValue.num 1) = JsValue.bool true ∧
    normalizeBoolean (JsValue.str "1") = JsValue.bool true ∧
    normalizeBoolean (JsValue.num 0) = JsValue.bool false ∧
    normalizeBoolean (JsValue.str "0") = JsValue.bool false ∧
    normalizeBoolean JsValue.null = JsValue.null ∧
    (∀ v : JsValue, (∀ b, v ≠ JsValue.bool b) → v ≠ JsValue.num 1 →
      v ≠ JsValue.str "1" → v ≠ JsValue.num 0 → v ≠ JsValue.str "0" →
      normalizeBoolean v = JsValue.null) ∧
    (∀ (columns : List DataStoreColumn) (k : String) (v : JsValue),
      lookupType columns k = some ColumnType.boolean →
      normalizeCell columns (k, v) = (k, normalizeBoolean v)) := by
  refine ⟨fun b => rfl, rfl, rfl, rfl, rfl, rfl, ?_, ?_⟩
  · intro v h1 h2 h3 h4 h5
    match v with
    | JsValue.bool b => exact absurd rfl (h1 b)
    | JsValue.null => rfl
    | JsValue.num n =>
      simp only [normalizeBoolean]
      rw [if_neg, if_neg]
      · rintro (h | h)
        · exact h4 h
        · exact JsValue.noConfusion h
      · rintro (h | h)
        · exact h2 h
        · exact JsValue.noConfusion h
    | JsValue.str s =>
      simp only [normalizeBoolean]
      rw [if_neg, if_neg]
      · rintro (h | h)
        · exact JsValue.noConfusion h
        · exact h5 h
      · rintro (h | h)
        · exact JsValue.noConfusion h
        · exact h3 h
    | JsValue.date ms =>
      simp only [normalizeBoolean]
      rw [if_neg, if_neg]
      · rintro (h | h) <;> exact JsValue.noConfusion h
      · rintro (h | h) <;> exact JsValue.noConfusion h
  · intro columns k v hty
    simp [normalizeCell, hty]

/-- C4 witness: the coercion evaluated at representative raw values,
including a non-listed value (`'yes'`) and a boolean-column cell routed
through the per-cell switch. -/
theorem normalizeBoolean_coercion_witness :
    normalizeBoolean (JsValue.bool true) = JsValue.bool true ∧
    normalizeBoolean (JsValue.str "yes") = JsValue.null ∧
    normalizeCell [⟨"paid", ColumnType.boolean⟩] ("paid", JsValue.num 1) =
      ("paid", JsValue.bool true) := by
  refine ⟨normalizeBoolean_coercion.1 true, ?_, ?_⟩
  · exact normalizeBoolean_coercion.2.2.2.2.2.2.1 (JsValue.str "yes")
      (by intro b; cases b <;> decide) (by decide) (by decide) (by decide) (by decide)
  · rw [normalizeBoolean_coercion.2.2.2.2.2.2.2 [⟨"paid", ColumnType.boolean⟩]
      "paid" (JsValue.num 1) (by decide)]
    rfl

theorem validateCells_cons_bool_mismatch (columns : List DataStoreColumn)
    (k : String) (v : JsValue) (post : List (String × JsValue))
    (hty : lookupType columns k = some ColumnType.boolean)
    (hnull : v ≠ JsValue.null) (hb : ∀ b, v ≠ JsValue.bool b) :
    validateCells columns ((k, v) :: post) =
      ((k, v) :: post,
        some ⟨"value '" ++ jsToString v ++ "' does not match column type 'boolean'"⟩) := by
  have hcon : (columnNames columns).contains k = true :=
    (contains_iff_lookupType columns k).mpr (by simp [hty])
  have hmem : k ∈ columnNames columns := by
    simpa [List.contains, List.elem_iff] using hcon
  cases v with
  | bool b => exact absurd rfl (hb b)
  | null => exact absurd rfl hnull
  | num n => simp [validateCells, hmem, hty]
  | str s => simp [validateCells, hmem, hty]
  | date ms => simp [validateCells, hmem, hty]

/-- C5: write-path strictness for boolean columns.  For every non-empty
schema and a row whose keys match the schema (surrounding cells valid, key
count equal to the column count): a null cell is accepted by `validateRows`
whatever its column's declared type; a non-null cell of a boolean column is
accepted if and only if it is a native boolean; and a non-boolean non-null
value (in particular `1`, `'1'`, `0`, `'0'`) is rejected with the
type-mismatch error naming the offending value — no read-path-style
coercion. -/
theorem validateRows_boolean_write_strict (columns : List DataStoreColumn)
    (pre post : List (String × JsValue)) (k : String)
    (h0 : columns ≠ [])
    (hpre : ∀ kc ∈ pre, validCell columns kc = true)
    (hpost : ∀ kc ∈ post, validCell columns kc = true)
    (hcon : (columnNames columns).contains k = true) :
    ((pre ++ (k, JsValue.null) :: post).length = columns.length →
      (validateRows columns [pre ++ (k, JsValue.null) :: post]).2 = none) ∧
    (lookupType columns k = some ColumnType.boolean →
      ∀ v : JsValue, (pre ++ (k, v) :: post).length = columns.length →
        (((validateRows columns [pre ++ (k, v) :: post]).2 = none) ↔
          (v = JsValue.null ∨ ∃ b, v = JsValue.bool b)) ∧
        (v ≠ JsValue.null → (∀ b, v ≠ JsValue.bool b) →
          (validateRows columns [pre ++ (k, v) :: post]).2 =
            some ⟨"value '" ++ jsToString v ++
              "' does not match column type 'boolean'"⟩)) := by
  have hmem : k ∈ columnNames columns := by
    simpa [List.contains, List.elem_iff] using hcon
  have haccept : ∀ v : JsValue, validCell columns (k, v) = true →
      (pre ++ (k, v) :: post).length = columns.length →
      (validateRows columns [pre ++ (k, v) :: post]).2 = none := by
    intro v hv hlen
    have hall : ∀ r ∈ [pre ++ (k, v) :: post], rowValid columns r = true := by
      intro r hr
      simp only [List.mem_singleton] at hr
      subst hr
      simp only [rowValid, Bool.and_eq_true, beq_iff_eq, List.all_eq_true]
      refine ⟨hlen, ?_⟩
      intro kc hkc
      rcases List.mem_append.mp hkc with hkc | hkc
      · exact hpre kc hkc
      · rcases List.mem_cons.mp hkc with hkc | hkc
        · subst hkc; exact hv
        · exact hpost kc hkc
    rw [validateRows_all_valid columns _ h0 hall]
  have hreject : lookupType columns k = some ColumnType.boolean →
      ∀ v : JsValue, (pre ++ (k, v) :: post).length = columns.length →
      v ≠ JsValue.null → (∀ b, v ≠ JsValue.bool b) →
      (validateRows columns [pre ++ (k, v) :: post]).2 =
        some ⟨"value '" ++ jsToString v ++
          "' does not match column type 'boolean'"⟩ := by
    intro hty v hlen hnull hb
    have hcells : validateCells columns (pre ++ (k, v) :: post) =
        (pre.map (rewriteEntry columns) ++ (k, v) :: post,
          some ⟨"value '" ++ jsToString v ++
            "' does not match column type 'boolean'"⟩) := by
      rw [validateCells_append columns pre ((k, v) :: post) hpre,
        validateCells_cons_bool_mismatch columns k v post hty hnull hb]
    have := validateRows_fail_decompose columns [] (pre ++ (k, v) :: post) []
      _ _ h0 (by simp) hlen.symm hcells
    simpa using congrArg Prod.snd this
  refine ⟨fun hlen => haccept JsValue.null ?_ hlen, fun hty v hlen => ⟨?_, hreject hty v hlen⟩⟩
  · simp [validCell, hcon, hmem]
  · constructor
    · intro hnone
      by_cases hnull : v = JsValue.null
      · exact Or.inl hnull
      · by_cases hbool : ∃ b, v = JsValue.bool b
        · exact Or.inr hbool
        · have hb : ∀ b, v ≠ JsValue.bool b := by
            intro b hvb
            exact hbool ⟨b, hvb⟩
          rw [hreject hty v hlen hnull hb] at hnone
          exact Option.noConfusion hnone
    · rintro (rfl | ⟨b, rfl⟩)
      · exact haccept JsValue.null (by simp [validCell, hcon, hmem]) hlen
      · exact haccept (JsValue.bool b)
          (by simp [validCell, hcon, hmem, hty, cellMatchesType]) hlen

/-- C5 witness: against the schema `{paid: boolean, total: number}`, a null
`paid` cell is accepted, a native boolean is accepted, and the raw value
`1` is rejected with the type-mismatch error naming `1` — no write-path
coercion. -/
theorem validateRows_boolean_write_strict_witness :
    (validateRows [⟨"paid", ColumnType.boolean⟩, ⟨"total", ColumnType.number⟩]
        [[("paid", JsValue.null), ("total", JsValue.num 10)]]).2 = none ∧
    (validateRows [⟨"paid", ColumnType.boolean⟩, ⟨"total", ColumnType.number⟩]
        [[("paid", JsValue.bool true), ("total", JsValue.num 10)]]).2 = none ∧
    (validateRows [⟨"paid", ColumnType.boolean⟩, ⟨"total", ColumnType.number⟩]
        [[("paid", JsValue.num 1), ("total", JsValue.num 10)]]).2 =
      some ⟨"value '1' does not match column type 'boolean'"⟩ := by
  have h := validateRows_boolean_write_strict
      [⟨"paid", ColumnType.boolean⟩, ⟨"total", ColumnType.number⟩]
      [] [("total", JsValue.num 10)] "paid"
      (by decide) (by decide) (by decide) (by decide)
  refine ⟨h.1 (by decide), ?_, ?_⟩
  · exact ((h.2 (by decide) (JsValue.bool true) (by decide)).1).mpr
      (Or.inr ⟨true, rfl⟩)
  · have h2 := (h.2 (by decide) (JsValue.num 1) (by decide)).2
      (by decide) (by intro b; cases b <;> decide)
    exact h2

theorem rewriteEntry_fst (columns : List DataStoreColumn) (kc : String × JsValue) :
    (rewriteEntry columns kc).1 = kc.1 := by
  obtain ⟨k, c⟩ := kc
  cases c <;> simp [rewriteEntry]
  split <;> rfl

theorem normalizeCell_rewriteEntry (columns : List DataStoreColumn)
    (kc : String × JsValue) (h : validCell columns kc = true) :
    normalizeCell columns (rewriteEntry columns kc) = kc := by
  obtain ⟨k, c⟩ := kc
  simp only [validCell, Bool.and_eq_true] at h
  obtain ⟨hcon, hrest⟩ := h
  have hsome : (lookupType columns k).isSome = true :=
    (contains_iff_lookupType columns k).mp hcon
  obtain ⟨ty, hty⟩ := Option.isSome_iff_exists.mp hsome
  by_cases hnull : c = JsValue.null
  · subst hnull
    cases ty <;>
      simp [rewriteEntry, normalizeCell, hty, normalizeBoolean, normalizeDate,
        normalizeString, normalizeNumber]
  · rw [if_neg hnull, hty] at hrest
    cases ty <;> cases c <;>
      simp_all [cellMatchesType, rewriteEntry, normalizeCell, hty,
        normalizeBoolean, normalizeDate, normalizeString, normalizeNumber,
        jsParseDate_toISOString]

/-- C6: round-trip.  For every non-empty schema and every batch accepted by
`validateRows` (keys matching the schema, non-null cells correctly typed),
applying `normalizeRows` with the same schema to the validated stored-form
batch returns exactly the original batch: string, number and boolean cells
come back unchanged, and each non-null date cell — stored as its ISO
string — parses back to the original (valid, non-null) date value. -/
theorem validate_normalize_roundtrip (columns : List DataStoreColumn)
    (rows : List Row) (h0 : columns ≠ [])
    (h : ∀ r ∈ rows, rowValid columns r = true) :
    normalizeRows (validateRows columns rows).1 columns = rows := by
  rw [validateRows_all_valid columns rows h0 h]
  simp only [normalizeRows, rewriteRow, List.map_map]
  refine (List.map_congr_left ?_).trans (List.map_id rows)
  intro r hr
  have hcells : ∀ kc ∈ r, validCell columns kc = true := by
    have := h r hr
    simp only [rowValid, Bool.and_eq_true, List.all_eq_true] at this
    exact this.2
  show (rewriteRow columns r).map (normalizeCell columns) = r
  simp only [rewriteRow, List.map_map]
  refine (List.map_congr_left ?_).trans (List.map_id r)
  intro kc hkc
  simp only [Function.comp_apply, id_eq]
  exact normalizeCell_rewriteEntry columns kc (hcells kc hkc)

/-- C6 witness: a validated row with a date, a string and a number cell
normalizes back to the original row. -/
theorem validate_normalize_roundtrip_witness :
    normalizeRows
        (validateRows [⟨"d", ColumnType.date⟩, ⟨"s", ColumnType.string⟩]
          [[("d", JsValue.date 7), ("s", JsValue.str "hi")]]).1
        [⟨"d", ColumnType.date⟩, ⟨"s", ColumnType.string⟩] =
      [[("d", JsValue.date 7), ("s", JsValue.str "hi")]] :=
  validate_normalize_roundtrip [⟨"d", ColumnType.date⟩, ⟨"s", ColumnType.string⟩]
    [[("d", JsValue.date 7), ("s", JsValue.str "hi")]] (by decide) (by decide)

theorem normalizeCell_canonical (columns : List DataStoreColumn)
    (kc : String × JsValue) (h : canonicalCell columns kc = true) :
    normalizeCell columns kc = kc := by
  obtain ⟨k, c⟩ := kc
  simp only [canonicalCell] at h
  cases hty : lookupType columns k with
  | none => simp [normalizeCell, hty]
  | some ty =>
    rw [hty] at h
    have h2 : (if c = JsValue.null then true else cellMatchesType ty c) = true := h
    by_cases hnull : c = JsValue.null
    · subst hnull
      cases ty <;> simp [normalizeCell, hty, normalizeBoolean, normalizeDate,
        normalizeString, normalizeNumber]
    · rw [if_neg hnull] at h2
      cases ty <;> cases c <;>
        simp_all [cellMatchesType, normalizeCell, hty, normalizeBoolean,
          normalizeDate, normalizeString, normalizeNumber]

theorem normalizeBoolean_canonical (v : JsValue) :
    normalizeBoolean v = JsValue.null ∨ ∃ b, normalizeBoolean v = JsValue.bool b := by
  cases v with
  | bool b => exact Or.inr ⟨b, rfl⟩
  | _ =>
    simp only [normalizeBoolean]
    split
    · exact Or.inr ⟨true, rfl⟩
    · split
      · exact Or.inr ⟨false, rfl⟩
      · exact Or.inl rfl

theorem normalizeDate_canonical (v : JsValue) :
    normalizeDate v = JsValue.null ∨ ∃ t, normalizeDate v = JsValue.date t := by
  cases v with
  | str s =>
    simp only [normalizeDate]
    cases jsParseDate s with
    | none => exact Or.inl rfl
    | some t => exact Or.inr ⟨t, rfl⟩
  | bool b => exact Or.inl rfl
  | num n => exact Or.inr ⟨n, rfl⟩
  | date ms => exact Or.inr ⟨ms, rfl⟩
  | null => exact Or.inl rfl

theorem normalizeString_canonical (v : JsValue) :
    normalizeString v = JsValue.null ∨ ∃ s, normalizeString v = JsValue.str s := by
  cases v with
  | null => exact Or.inl rfl
  | str s => exact Or.inr ⟨s, rfl⟩
  | bool b => exact Or.inr ⟨jsToString (JsValue.bool b), rfl⟩
  | num n => exact Or.inr ⟨jsToString (JsValue.num n), rfl⟩
  | date ms => exact Or.inr ⟨jsToString (JsValue.date ms), rfl⟩

theorem normalizeNumber_canonical (v : JsValue) :
    normalizeNumber v = JsValue.null ∨ ∃ n, normalizeNumber v = JsValue.num n := by
  cases v with
  | null => exact Or.inl rfl
  | num n => exact Or.inr ⟨n, rfl⟩
  | bool b =>
    simp only [normalizeNumber]
    cases jsToNumber (JsValue.bool b) with
    | none => exact Or.inl rfl
    | some n => exact Or.inr ⟨n, rfl⟩
  | str s =>
    simp only [normalizeNumber]
    cases jsToNumber (JsValue.str s) with
    | none => exact Or.inl rfl
    | some n => exact Or.inr ⟨n, rfl⟩
  | date ms =>
    simp only [normalizeNumber]
    cases jsToNumber (JsValue.date ms) with
    | none => exact Or.inl rfl
    | some n => exact Or.inr ⟨n, rfl⟩

theorem normalizeCell_output_canonical (columns : List DataStoreColumn)
    (kc : String × JsValue) :
    canonicalCell columns (normalizeCell columns kc) = true := by
  obtain ⟨k, c⟩ := kc
  cases hty : lookupType columns k with
  | none => simp [normalizeCell, canonicalCell, hty]
  | some ty =>
    cases ty
    case boolean =>
      rcases normalizeBoolean_canonical c with h | ⟨b, h⟩ <;>
        simp [normalizeCell, canonicalCell, hty, h, cellMatchesType]
    case date =>
      rcases normalizeDate_canonical c with h | ⟨t, h⟩ <;>
        simp [normalizeCell, canonicalCell, hty, h, cellMatchesType]
    case string =>
      rcases normalizeString_canonical c with h | ⟨s, h⟩ <;>
        simp [normalizeCell, canonicalCell, hty, h, cellMatchesType]
    case number =>
      rcases normalizeNumber_canonical c with h | ⟨n, h⟩ <;>
        simp [normalizeCell, canonicalCell, hty, h, cellMatchesType]

/-- C7: idempotence of normalization.  A row whose cells are already in
canonical form for their columns' declared types (null or the native value
of the type; undeclared keys pass through) is returned unchanged by
`normalizeRows`, and consequently `normalizeRows` composed with itself
always equals a single application. -/
theorem normalizeRows_idempotent :
    (∀ (columns : List DataStoreColumn) (rows : List Row),
      (∀ r ∈ rows, ∀ kc ∈ r, canonicalCell columns kc = true) →
      normalizeRows rows columns = rows) ∧
    (∀ (columns : List DataStoreColumn) (rows : List Row),
      normalizeRows (normalizeRows rows columns) columns =
        normalizeRows rows columns) := by
  have hfix : ∀ (columns : List DataStoreColumn) (rows : List Row),
      (∀ r ∈ rows, ∀ kc ∈ r, canonicalCell columns kc = true) →
      normalizeRows rows columns = rows := by
    intro columns rows h
    simp only [normalizeRows]
    refine (List.map_congr_left ?_).trans (List.map_id rows)
    intro r hr
    refine (List.map_congr_left ?_).trans (List.map_id r)
    intro kc hkc
    exact normalizeCell_canonical columns kc (h r hr kc hkc)
  refine ⟨hfix, fun columns rows => hfix columns _ ?_⟩
  intro r hr kc hkc
  simp only [normalizeRows, List.mem_map] at hr
  obtain ⟨r0, _, rfl⟩ := hr
  simp only [List.mem_map] at hkc
  obtain ⟨kc0, _, rfl⟩ := hkc
  exact normalizeCell_output_canonical columns kc0

/-- C7 witness: an already-canonical row (native boolean, native date,
null) is returned unchanged by `normalizeRows`. -/
theorem normalizeRows_idempotent_witness :
    normalizeRows [[("a", JsValue.bool true), ("b", JsValue.date 4), ("c", JsValue.null)]]
        [⟨"a", ColumnType.boolean⟩, ⟨"b", ColumnType.date⟩, ⟨"c", ColumnType.string⟩] =
      [[("a", JsValue.bool true), ("b", JsValue.date 4), ("c", JsValue.null)]] :=
  normalizeRows_idempotent.1
    [⟨"a", ColumnType.boolean⟩, ⟨"b", ColumnType.date⟩, ⟨"c", ColumnType.string⟩]
    [[("a", JsValue.bool true), ("b", JsValue.date 4), ("c", JsValue.null)]]
    (by decide)

/-- C8: batch atomicity of writes.  For every batch handed to `insertRows`
or `upsertRows`, the call's error is exactly the validation error; when any
row fails validation the row-storage collaborator is never invoked (nothing
is persisted), and when the whole batch passes, the storage collaborator
receives exactly the validated batch. -/
theorem insert_upsert_atomicity (columns : List DataStoreColumn)
    (rows : List Row) (mf : List String) :
    ((insertRows columns rows).error = (validateRows columns rows).2) ∧
    ((validateRows columns rows).2 ≠ none →
      (insertRows columns rows).persisted = none) ∧
    ((validateRows columns rows).2 = none →
      (insertRows columns rows).persisted = some (validateRows columns rows).1) ∧
    ((upsertRows columns ⟨rows, mf⟩).error = (validateRows columns rows).2) ∧
    ((validateRows columns rows).2 ≠ none →
      (upsertRows columns ⟨rows, mf⟩).persisted = none) ∧
    ((validateRows columns rows).2 = none →
      (upsertRows columns ⟨rows, mf⟩).persisted = some (validateRows columns rows).1) := by
  rcases hv : validateRows columns rows with ⟨rows2, e⟩
  cases e <;> simp [insertRows, upsertRows, hv]

/-- C8 witness: a batch whose single row fails boolean validation is not
persisted by `insertRows` or `upsertRows`; a passing batch is handed to
storage. -/
theorem insert_upsert_atomicity_witness :
    (insertRows [⟨"paid", ColumnType.boolean⟩] [[("paid", JsValue.str "yes")]]).persisted =
      none ∧
    (upsertRows [⟨"paid", ColumnType.boolean⟩]
        ⟨[[("paid", JsValue.str "yes")]], ["paid"]⟩).persisted = none ∧
    (insertRows [⟨"paid", ColumnType.boolean⟩] [[("paid", JsValue.bool false)]]).persisted =
      some [[("paid", JsValue.bool false)]] := by
  refine ⟨(insert_upsert_atomicity [⟨"paid", ColumnType.boolean⟩]
      [[("paid", JsValue.str "yes")]] ["paid"]).2.1 (by decide),
    (insert_upsert_atomicity [⟨"paid", ColumnType.boolean⟩]
      [[("paid", JsValue.str "yes")]] ["paid"]).2.2.2.2.1 (by decide), ?_⟩
  have h := (insert_upsert_atomicity [⟨"paid", ColumnType.boolean⟩]
      [[("paid", JsValue.bool false)]] []).2.2.1 (by decide)
  rw [h]
  rfl

/-- C9: `createDataStore` fails with the duplicate-name error exactly when a
data store with that name already exists in that project; a same-named
store in a different project does not block creation, and on the error path
creation is never delegated to the repository. -/
theorem createDataStore_duplicate_name (stores : List DataStoreEntity)
    (projectId name : String) (columns : List DataStoreColumn) :
    ((∃ s ∈ stores, s.name = name ∧ s.projectId = projectId) ↔
      createDataStore stores projectId name columns =
        CreateResult.failed
          ⟨"Data store with name '" ++ name ++ "' already exists in this project"⟩) ∧
    ((∀ s ∈ stores, ¬(s.name = name ∧ s.projectId = projectId)) →
      createDataStore stores projectId name columns =
        CreateResult.created projectId name columns) := by
  constructor
  · constructor
    · rintro ⟨s, hs, hn, hp⟩
      have hfind : (findOneBy stores name projectId).isSome = true := by
        rw [findOneBy, List.find?_isSome]
        exact ⟨s, hs, by simp [hn, hp]⟩
      obtain ⟨s', hs'⟩ := Option.isSome_iff_exists.mp hfind
      simp [createDataStore, hs']
    · intro hres
      by_cases hfind : (findOneBy stores name projectId).isSome = true
      · obtain ⟨s', hs'⟩ := Option.isSome_iff_exists.mp hfind
        have hmem := List.mem_of_find?_eq_some hs'
        have hpred := List.find?_some hs'
        simp only [Bool.and_eq_true, beq_iff_eq] at hpred
        exact ⟨s', hmem, hpred⟩
      · have hnone : findOneBy stores name projectId = none :=
          Option.not_isSome_iff_eq_none.mp hfind
        rw [createDataStore, hnone] at hres
        exact absurd hres (by simp)
  · intro hall
    have hnone : findOneBy stores name projectId = none := by
      rw [findOneBy, List.find?_eq_none]
      intro s hs
      simp only [Bool.and_eq_true, beq_iff_eq, not_and]
      intro hn hp
      exact hall s hs ⟨hn, hp⟩
    simp [createDataStore, hnone]

/-- C9 witness: with `"orders"` existing in project `P1`, creating
`"orders"` in `P1` fails with the duplicate-name error while creating it in
`P2` is delegated to the repository. -/
theorem createDataStore_duplicate_name_witness :
    createDataStore [⟨"orders", "P1"⟩] "P1" "orders"
        [⟨"paid", ColumnType.boolean⟩, ⟨"total", ColumnType.number⟩] =
      CreateResult.failed
        ⟨"Data store with name 'orders' already exists in this project"⟩ ∧
    createDataStore [⟨"orders", "P1"⟩] "P2" "orders"
        [⟨"paid", ColumnType.boolean⟩, ⟨"total", ColumnType.number⟩] =
      CreateResult.created "P2" "orders"
        [⟨"paid", ColumnType.boolean⟩, ⟨"total", ColumnType.number⟩] :=
  ⟨((createDataStore_duplicate_name [⟨"orders", "P1"⟩] "P1" "orders"
      [⟨"paid", ColumnType.boolean⟩, ⟨"total", ColumnType.number⟩]).1).mp
      ⟨⟨"orders", "P1"⟩, by decide, rfl, rfl⟩,
    (createDataStore_duplicate_name [⟨"orders", "P1"⟩] "P2" "orders"
      [⟨"paid", ColumnType.boolean⟩, ⟨"total", ColumnType.number⟩]).2 (by decide)⟩

/-- C10: `validateRows` mutates its input batch in place.  When validation
fails inside a row's cell loop, the batch the caller observes (the first
component of the result, which is also the batch recorded by a failing
`insertRows` call) has every earlier row rewritten by `rewriteRow` and the
cells of the failing row that precede the failure point rewritten by
`rewriteEntry` — so every date cell examined before the failure has already
been replaced by its ISO-8601 string, and a failed call does not leave the
input batch unchanged. -/
theorem validateRows_mutates_on_failure (columns : List DataStoreColumn)
    (rows1 : List Row) (pre suffix : List (String × JsValue)) (rows2 : List Row)
    (h0 : columns ≠ [])
    (h1 : ∀ r ∈ rows1, rowValid columns r = true)
    (hpre : ∀ kc ∈ pre, validCell columns kc = true)
    (hlen : columns.length = (pre ++ suffix).length)
    (e : UserError) (hf : (validateCells columns suffix).2 = some e) :
    validateRows columns (rows1 ++ (pre ++ suffix) :: rows2) =
      (rows1.map (rewriteRow columns) ++
        (pre.map (rewriteEntry columns) ++ (validateCells columns suffix).1) :: rows2,
        some e) ∧
    (insertRows columns (rows1 ++ (pre ++ suffix) :: rows2)).batch =
      rows1.map (rewriteRow columns) ++
        (pre.map (rewriteEntry columns) ++ (validateCells columns suffix).1) :: rows2 := by
  have hcells : validateCells columns (pre ++ suffix) =
      (pre.map (rewriteEntry columns) ++ (validateCells columns suffix).1, some e) := by
    rw [validateCells_append columns pre suffix hpre, hf]
  have hmain := validateRows_fail_decompose columns rows1 (pre ++ suffix) rows2
    _ e h0 h1 hlen hcells
  refine ⟨hmain, ?_⟩
  simp [insertRows, hmain]

/-- C10 witness: a date cell precedes a failing number cell; after the
failed call the caller's batch holds the ISO string in place of the
original date value, so the batch is observably changed. -/
theorem validateRows_mutates_on_failure_witness :
    validateRows [⟨"a", ColumnType.date⟩, ⟨"b", ColumnType.number⟩]
        [[("a", JsValue.date 0), ("b", JsValue.str "x")]] =
      ([[("a", JsValue.str (toISOString 0)), ("b", JsValue.str "x")]],
        some ⟨"value 'x' does not match column type 'number'"⟩) ∧
    ([[("a", JsValue.str (toISOString 0)), ("b", JsValue.str "x")]] : List Row) ≠
      [[("a", JsValue.date 0), ("b", JsValue.str "x")]] := by
  constructor
  · have h := (validateRows_mutates_on_failure
        [⟨"a", ColumnType.date⟩, ⟨"b", ColumnType.number⟩]
        [] [("a", JsValue.date 0)] [("b", JsValue.str "x")] []
        (by decide) (by decide) (by decide) (by decide)
        ⟨"value 'x' does not match column type 'number'"⟩ (by decide)).1
    exact h
  · decide

end DataStore
